import Mathlib

/-!
Shallow embedding of the whisper round-robin database core of
syepes/graphite-rust, covering the point codec (src/whisper/point.rs)
and the write pipeline (src/whisper/file/file.rs).

Modelling conventions:
- Machine integers (u32/u64) are Nat with explicit reductions mod 2^32 /
  2^64 at the places the source truncates or wraps.
- f64 point values carried through the write pipeline are modelled over ℚ
  (the pipeline only adds them and divides by a count); on-disk f64 bytes
  in the codec are modelled as the 64-bit pattern, a Nat below 2^64.
- The f32 x-files-factor comparison `ratio < xff` is modelled as the exact
  rational comparison; every concrete scenario below uses values on which
  f32 arithmetic is exact.
- The file is modelled at slot granularity: a Disk maps a byte offset to
  the decoded 12-byte record stored there.  All reads and writes of the
  pipeline address slots through the same offset arithmetic as the source,
  and the u32 truncation performed by point::fill_buf is reflected by
  storing the timestamp reduced mod 2^32.
- Functions of ArchiveInfo (archive_info.rs is not among the sources) are
  modelled from the spec where noted; everything else is translated from
  the Rust sources.
-/

namespace Whisper

/-! ## Point codec (src/whisper/point.rs) -/

/-- Big-endian byte decomposition of a u32 value (byteorder BigEndian). -/
def u32BytesBE (n : Nat) : List Nat :=
  [n / 2 ^ 24 % 256, n / 2 ^ 16 % 256, n / 2 ^ 8 % 256, n % 256]

/-- Big-endian byte decomposition of a u64 value (byteorder BigEndian).
The f64 written by fill_buf is represented by its 64-bit pattern. -/
def u64BytesBE (n : Nat) : List Nat :=
  [n / 2 ^ 56 % 256, n / 2 ^ 48 % 256, n / 2 ^ 40 % 256, n / 2 ^ 32 % 256,
   n / 2 ^ 24 % 256, n / 2 ^ 16 % 256, n / 2 ^ 8 % 256, n % 256]

/-- Big-endian recomposition of a byte list (cursor.read_u32 / read_f64). -/
def bytesToNatBE (bs : List Nat) : Nat :=
  bs.foldl (fun acc b => acc * 256 + b) 0

/-- point::fill_buf: writes `interval_ceiling as u32` (truncating the u64 to
its low 32 bits) big-endian, then the 8 bytes of the f64 value.  `vbits` is
the 64-bit pattern of the value. -/
def fill_buf (interval_ceiling : Nat) (vbits : Nat) : List Nat :=
  u32BytesBE (interval_ceiling % 2 ^ 32) ++ u64BytesBE (vbits % 2 ^ 64)

/-- point::buf_to_point: reads a big-endian u32 timestamp then a big-endian
f64 value (as its 64-bit pattern) from the first 12 bytes. -/
def buf_to_point (buf : List Nat) : Nat × Nat :=
  (bytesToNatBE (buf.take 4), bytesToNatBE ((buf.drop 4).take 8))

/-! ## Data model (file.rs, with the missing struct files modelled) -/

/-- In-memory point (point.rs): u64 timestamp and f64 value (over ℚ). -/
structure Point where
  timestamp : Nat
  value : ℚ
deriving DecidableEq, Repr

/-- Archive descriptor.  The struct fields are those used by file.rs
(offset, seconds_per_point, points, retention); archive_info.rs itself is
not among the sources. -/
structure ArchiveInfo where
  offset : Nat
  seconds_per_point : Nat
  points : Nat
  retention : Nat
deriving DecidableEq, Repr

/-- Modelled from the spec: size_in_bytes = 12 × points (§3 Archive). -/
def ArchiveInfo.size_in_bytes (ai : ArchiveInfo) : Nat := 12 * ai.points

/-- Modelled from the spec: interval_ceiling(t) = t − (t mod
seconds_per_point) (§4.2); archive_info.rs is not among the sources. -/
def ArchiveInfo.interval_ceiling (ai : ArchiveInfo) (t : Nat) : Nat :=
  t - t % ai.seconds_per_point

/-- Aggregation methods (metadata.rs is not among the sources; codes per
spec §3: Average=1, Sum=2, Last=3, Max=4, Min=5). -/
inductive AggregationType where
  | Average | Sum | Last | Max | Min
deriving DecidableEq, Repr

/-- File metadata (metadata.rs is not among the sources; fields are those
used by file.rs).  x_files_factor is the f32 threshold, modelled over ℚ. -/
structure Metadata where
  aggregation_type : AggregationType
  max_retention : Nat
  x_files_factor : ℚ
  archive_count : Nat
deriving DecidableEq, Repr

/-- Disk contents at slot granularity: byte offset ↦ decoded record.  An
offset never written holds the all-zero record (timestamp 0, value 0),
matching the zero-filled file created by ftruncate. -/
def Disk := Nat → Point

/-- A planned 12-byte write (write_op.rs is not among the sources): seek
position and the record encoded in the 12 bytes.  The u32 truncation done
by fill_buf is part of build_write_op below. -/
structure WriteOp where
  seek : Nat
  point : Point
deriving DecidableEq, Repr

/-- WhisperFile::read_point: seek to the byte offset and decode one
12-byte record. -/
def read_point (disk : Disk) (offset : Nat) : Point := disk offset

/-- WhisperFile::perform_write_op: seek and write the 12 bytes. -/
def perform_write_op (disk : Disk) (op : WriteOp) : Disk :=
  fun o => if o = op.seek then op.point else disk o

/-- Modelled from the spec: ArchiveInfo::calculate_seek (§4.2 seek).
base_timestamp = 0 lands at the offset of the archive; otherwise the byte
distance from the base timestamp is wrapped into the ring with the
truncated remainder followed by the add-size fixup spelled out in §4.2
(yielding the Euclidean modulo). -/
def ArchiveInfo.calculate_seek (ai : ArchiveInfo) (point : Point)
    (base_timestamp : Nat) : Nat :=
  if base_timestamp = 0 then ai.offset
  else
    let time_distance : Int :=
      (ai.interval_ceiling point.timestamp : Int) - (base_timestamp : Int)
    let point_distance : Int := time_distance.tdiv (ai.seconds_per_point : Int)
    let byte_distance : Int := point_distance * 12
    let size : Int := (ai.size_in_bytes : Int)
    ai.offset + ((byte_distance.tmod size + size).tmod size).toNat

/-- build_write_op (file.rs): encode (interval_ceiling, value) — the
timestamp truncated to u32 by fill_buf — at calculate_seek. -/
def build_write_op (archive_info : ArchiveInfo) (point : Point)
    (base_timestamp : Nat) : WriteOp :=
  let ic := archive_info.interval_ceiling point.timestamp
  { seek := archive_info.calculate_seek point base_timestamp
    point := { timestamp := ic % 2 ^ 32, value := point.value } }

/-- Modelled from the spec: ArchiveInfo::read_points(index, buf) reads
buf.len() consecutive slots starting at slot `index` (§4.2 window_slice
produces contiguous slot ranges; archive_info.rs is not among the
sources). -/
def read_slots (disk : Disk) (ai : ArchiveInfo) (index count : Nat) :
    List Point :=
  (List.range count).map (fun i => disk (ai.offset + 12 * (index + i)))

/-! ## The write pipeline (file.rs) -/

/-- u64 wrapping subtraction: file.rs computes
`current_time - point_timestamp` on u64; in release builds a negative
difference wraps mod 2^64. -/
def wrappedSub (a b : Nat) : Nat :=
  (a % 2 ^ 64 + 2 ^ 64 - b % 2 ^ 64) % 2 ^ 64

/-- WhisperFile::split: find the first archive whose retention is strictly
greater than current_time − point_timestamp; the rest of the iterator (the
strictly coarser archives after it) is returned alongside. -/
def split : List ArchiveInfo → Nat → Option (ArchiveInfo × List ArchiveInfo)
  | [], _ => none
  | ai :: rest, age =>
    if age < ai.retention then some (ai, rest) else split rest age

/-- Start slot for the downsample read (downsample_new_read_ops): 0 when
the base timestamp of the fine archive is 0, otherwise the slot distance from
the base timestamp wrapped with the truncated remainder plus the
add-points fixup, exactly as written in file.rs lines 321-344. -/
def h_res_start_index (disk : Disk) (h_res_archive l_res_archive : ArchiveInfo)
    (base_timestamp : Nat) : Nat :=
  let h_base_timestamp := (read_point disk h_res_archive.offset).timestamp
  if h_base_timestamp = 0 then 0
  else
    let l_interval_start := l_res_archive.interval_ceiling base_timestamp
    let timespan : Int := (l_interval_start : Int) - (h_base_timestamp : Int)
    let points : Int := timespan.tdiv (h_res_archive.seconds_per_point : Int)
    let remainder : Int := points.tmod (h_res_archive.points : Int)
    (if remainder < 0 then (h_res_archive.points : Int) + remainder
     else remainder).toNat

/-- downsample_new_read_ops (file.rs lines 320-359): plan one contiguous
read (start index, slot count) when start < end, otherwise a wrap-around
pair of reads.  The second read of the pair starts at the end index, as in
the source. -/
def downsample_new_read_ops (disk : Disk)
    (h_res_archive l_res_archive : ArchiveInfo) (base_timestamp : Nat) :
    (Nat × Nat) × Option (Nat × Nat) :=
  let h_res_start_idx :=
    h_res_start_index disk h_res_archive l_res_archive base_timestamp
  let h_res_points_needed :=
    l_res_archive.seconds_per_point / h_res_archive.seconds_per_point
  let h_res_end_index :=
    (h_res_start_idx + h_res_points_needed) % h_res_archive.points
  if h_res_start_idx < h_res_end_index then
    ((h_res_start_idx, h_res_points_needed), none)
  else
    ((h_res_start_idx, h_res_archive.points - h_res_start_idx),
     some (h_res_end_index,
           h_res_points_needed - (h_res_archive.points - h_res_start_idx)))

/-- filter_values (file.rs lines 308-318): keep exactly the slots whose
stored timestamp equals the expected timestamp zipped with them. -/
def filter_values (points : List Point) (range : List Nat) : List Point :=
  (points.zip range).filterMap
    (fun pe => if pe.1.timestamp = pe.2 then some pe.1 else none)

/-- Expected timestamps of the downsample window (file.rs lines 286-292):
range_step_inclusive from the coarse interval start through
start + needed·step, i.e. needed+1 values of which the zip inside
filter_values uses the first needed. -/
def expected_timestamps (h_res_archive l_res_archive : ArchiveInfo)
    (base_timestamp : Nat) : List Nat :=
  let needed :=
    l_res_archive.seconds_per_point / h_res_archive.seconds_per_point
  let start := l_res_archive.interval_ceiling base_timestamp
  (List.range (needed + 1)).map
    (fun i => start + i * h_res_archive.seconds_per_point)

/-- The fine-archive window actually read by downsample_new: the planned
first read followed by the planned second read, in buffer order. -/
def downsample_window (disk : Disk)
    (h_res_archive l_res_archive : ArchiveInfo) (base_timestamp : Nat) :
    List Point :=
  match downsample_new_read_ops disk h_res_archive l_res_archive
      base_timestamp with
  | ((i1, n1), second) =>
    read_slots disk h_res_archive i1 n1 ++
      (match second with
       | some (i2, n2) => read_slots disk h_res_archive i2 n2
       | none => [])

/-- The samples downsample_new keeps: the window filtered against the
expected timestamps. -/
def downsample_kept (disk : Disk)
    (h_res_archive l_res_archive : ArchiveInfo) (base_timestamp : Nat) :
    List Point :=
  filter_values
    (downsample_window disk h_res_archive l_res_archive base_timestamp)
    (expected_timestamps h_res_archive l_res_archive base_timestamp)

/-- aggregate_samples_consume (file.rs lines 467-482): skip when the kept
ratio is below the x-files-factor; under Average return the fold-sum of
the kept values divided by their count. -/
def aggregate_samples_consume (md : Metadata) (valid_points : List Point)
    (points_possible : Nat) : Option ℚ :=
  if (valid_points.length : ℚ) / (points_possible : ℚ) < md.x_files_factor
  then none
  else
    match md.aggregation_type with
    | AggregationType.Average =>
      some ((valid_points.map Point.value).foldl (· + ·) 0 /
        (valid_points.length : ℚ))
    | _ => some 0

/-- downsample_new (file.rs lines 246-306).  The debug panic on a 60-point
fine archive (lines 264-267) is modelled as an error; a skip is ok none; a
write is ok (some op) built on the coarse archive with the window-start
timestamp and the aggregate. -/
def downsample_new (md : Metadata) (disk : Disk)
    (h_res_archive l_res_archive : ArchiveInfo) (base_timestamp : Nat) :
    Except String (Option WriteOp) :=
  if h_res_archive.points = 60 then Except.error "sup"
  else
    let h_res_points_needed :=
      l_res_archive.seconds_per_point / h_res_archive.seconds_per_point
    match aggregate_samples_consume md
        (downsample_kept disk h_res_archive l_res_archive base_timestamp)
        h_res_points_needed with
    | none => Except.ok none
    | some aggregate =>
      let l_interval_start := l_res_archive.interval_ceiling base_timestamp
      let l_res_base_point := read_point disk l_res_archive.offset
      Except.ok (some (build_write_op l_res_archive
        { timestamp := l_interval_start, value := aggregate }
        l_res_base_point.timestamp))

/-- Result of one write call: the write ops performed in order and the
final disk; a Rust panic carries the ops performed before it aborted. -/
inductive WriteOutcome where
  | ok (ops : List WriteOp) (disk : Disk)
  | panicked (msg : String) (ops : List WriteOp) (disk : Disk)

/-- Record one more performed write op in front of an outcome. -/
def WriteOutcome.cons (op : WriteOp) : WriteOutcome → WriteOutcome
  | .ok ops d => .ok (op :: ops) d
  | .panicked m ops d => .panicked m (op :: ops) d

/-- The write ops performed (also by an aborted call, before the abort). -/
def WriteOutcome.ops : WriteOutcome → List WriteOp
  | .ok ops _ => ops
  | .panicked _ ops _ => ops

/-- The panic message, if the call aborted. -/
def WriteOutcome.panicMsg : WriteOutcome → Option String
  | .ok _ _ => none
  | .panicked m _ _ => some m

/-- The disk as left behind by the call. -/
def WriteOutcome.finalDisk : WriteOutcome → Disk
  | .ok _ d => d
  | .panicked _ _ d => d

/-- The take_while chain of write_archives (file.rs lines 228-241): walk
the zipped (finer, coarser) pairs; a downsample producing a write op
performs it and continues, a skip stops the whole chain, the debug panic
aborts. -/
def cascade (md : Metadata) (base_timestamp : Nat) :
    Disk → List (ArchiveInfo × ArchiveInfo) → WriteOutcome
  | disk, [] => .ok [] disk
  | disk, (h, l) :: rest =>
    match downsample_new md disk h l base_timestamp with
    | .error msg => .panicked msg [] disk
    | .ok none => .ok [] disk
    | .ok (some op) =>
      WriteOutcome.cons op
        (cascade md base_timestamp (perform_write_op disk op) rest)

/-- write_archives (file.rs lines 219-243): perform the primary write into
the selected archive, then — when coarser archives exist — run one
unconditional downsample from the selected archive into the first coarser
one (its skip is discarded by .map), and then the take_while chain over
the zipped coarser pairs. -/
def write_archives (md : Metadata) (disk : Disk) (ai : ArchiveInfo)
    (rest : List ArchiveInfo) (point : Point) (base_timestamp : Nat) :
    WriteOutcome :=
  let primary := build_write_op ai point base_timestamp
  let disk1 := perform_write_op disk primary
  match rest with
  | [] => .ok [primary] disk1
  | r0 :: _ =>
    match downsample_new md disk1 ai r0 point.timestamp with
    | .error msg => .panicked msg [primary] disk1
    | .ok none =>
      WriteOutcome.cons primary
        (cascade md point.timestamp disk1 (rest.zip (rest.drop 1)))
    | .ok (some op) =>
      WriteOutcome.cons primary (WriteOutcome.cons op
        (cascade md point.timestamp (perform_write_op disk1 op)
          (rest.zip (rest.drop 1))))

/-- Header: metadata plus ordered archive descriptors (header.rs is not
among the sources; fields are those used by file.rs). -/
structure Header where
  metadata : Metadata
  archive_infos : List ArchiveInfo

/-- A whisper file: its header and its slot contents. -/
structure WhisperFile where
  header : Header
  disk : Disk

/-- WhisperFile::write (file.rs lines 165-183): select the finest archive
still retaining the point; if none exists the call panics with
"no archives satisfy current time"; otherwise read the base timestamp
of the selected archive and run write_archives. -/
def WhisperFile.write (f : WhisperFile) (current_time : Nat) (point : Point) :
    WriteOutcome :=
  match split f.header.archive_infos (wrappedSub current_time point.timestamp) with
  | some (ai, rest) =>
    write_archives f.header.metadata f.disk ai rest point
      (read_point f.disk ai.offset).timestamp
  | none => .panicked "no archives satisfy current time" [] f.disk

end Whisper

namespace Whisper

/-! ## Concrete fixtures

fileC1: three archives (1s×8, 2s×8, 4s×8), x-files-factor 9/10, with the
fine archive anchored at base timestamp 8 and the middle archive already
holding matching samples for the window [8,12). -/

/-- Metadata of the three-archive fixture (Average, xff 9/10). -/
def mdC1 : Metadata := ⟨AggregationType.Average, 32, 9/10, 3⟩

/-- Finest archive of the three-archive fixture: 1s per point, 8 points. -/
def a0C1 : ArchiveInfo := ⟨52, 1, 8, 8⟩

/-- Middle archive of the three-archive fixture: 2s per point, 8 points. -/
def a1C1 : ArchiveInfo := ⟨148, 2, 8, 16⟩

/-- Coarsest archive of the three-archive fixture: 4s per point, 8 points. -/
def a2C1 : ArchiveInfo := ⟨244, 4, 8, 32⟩

/-- Disk of the three-archive fixture: fine base timestamp 8; middle
archive slots 0 and 1 hold (8, 1) and (10, 3); everything else zero. -/
def diskC1 : Disk := fun o =>
  if o = 52 then ⟨8, 0⟩
  else if o = 148 then ⟨8, 1⟩
  else if o = 160 then ⟨10, 3⟩
  else ⟨0, 0⟩

/-- The three-archive fixture file. -/
def fileC1 : WhisperFile := ⟨⟨mdC1, [a0C1, a1C1, a2C1]⟩, diskC1⟩

/-- Disk state of the three-archive fixture right after the primary write
of write(10, (10, 5)) — the state in which the cascade runs. -/
def disk1C1 : Disk := perform_write_op diskC1 (build_write_op a0C1 ⟨10, 5⟩ 8)

/-- Metadata of the single-archive 1m:1h fixture (spec scenario 1). -/
def mdA : Metadata := ⟨AggregationType.Average, 3600, 1/2, 1⟩

/-- The 1m:1h archive: offset 28, 60s per point, 60 points. -/
def arch1h : ArchiveInfo := ⟨28, 60, 60, 3600⟩

/-- A freshly created 1m:1h file: all slots zero. -/
def fileA : WhisperFile := ⟨⟨mdA, [arch1h]⟩, fun _ => ⟨0, 0⟩⟩

/-- Metadata of the 1m:1h,1h:1d fixture. -/
def mdB : Metadata := ⟨AggregationType.Average, 86400, 1/2, 2⟩

/-- Fine archive of the 1m:1h,1h:1d fixture: 60 points. -/
def a0B : ArchiveInfo := ⟨40, 60, 60, 3600⟩

/-- Coarse archive of the 1m:1h,1h:1d fixture. -/
def a1B : ArchiveInfo := ⟨760, 3600, 24, 86400⟩

/-- A freshly created 1m:1h,1h:1d file: all slots zero. -/
def fileB : WhisperFile := ⟨⟨mdB, [a0B, a1B]⟩, fun _ => ⟨0, 0⟩⟩

/-- Metadata of the epoch-window fixture (Average, xff 1/2). -/
def mdC6 : Metadata := ⟨AggregationType.Average, 8, 1/2, 2⟩

/-- Fine archive of the epoch-window fixture: 1s per point, 8 points. -/
def hC6 : ArchiveInfo := ⟨100, 1, 8, 8⟩

/-- Coarse archive of the epoch-window fixture: 2s per point, 4 points. -/
def lC6 : ArchiveInfo := ⟨200, 2, 4, 8⟩

/-- Disk of the epoch-window fixture: fine slot 0 holds the empty-marker
record (timestamp 0) with value 7, fine slot 1 holds (5, 3). -/
def diskC6 : Disk := fun o =>
  if o = 100 then ⟨0, 7⟩ else if o = 112 then ⟨5, 3⟩ else ⟨0, 0⟩

/-- Disk of the wrap-around read fixture: fine base timestamp 2. -/
def diskC7 : Disk := fun o => if o = 100 then ⟨2, 0⟩ else ⟨0, 0⟩

/-- Fine archive of the wrap-around read fixture: 1s per point, 8 points. -/
def hC7 : ArchiveInfo := ⟨100, 1, 8, 8⟩

/-- Coarse archive of the wrap-around read fixture: 4s per point. -/
def lC7 : ArchiveInfo := ⟨200, 4, 2, 8⟩

/-! ## Theorems -/

/-- Claim C9: for every timestamp t in [0, 2^32) and every finite double v
(given by its 64-bit pattern), decoding the 12 bytes produced by encoding
(t, v) yields exactly (t, v). -/
theorem c9_codec_round_trip (t v : Nat) (ht : t < 2 ^ 32) (hv : v < 2 ^ 64) :
    buf_to_point (fill_buf t v) = (t, v) ∧ (fill_buf t v).length = 12 := by
  constructor
  · simp only [buf_to_point, fill_buf, u32BytesBE, u64BytesBE, bytesToNatBE,
      List.cons_append, List.nil_append, List.take, List.drop, List.foldl,
      Prod.mk.injEq]
    constructor <;> omega
  · simp [fill_buf, u32BytesBE, u64BytesBE]

/-- Claim C9 witness: the round trip at t = 1000, v-pattern = 42. -/
theorem c9_codec_round_trip_witness :
    1000 < 2 ^ 32 ∧ 42 < 2 ^ 64 ∧
      (buf_to_point (fill_buf 1000 42) = (1000, 42) ∧
        (fill_buf 1000 42).length = 12) :=
  ⟨by decide, by decide, c9_codec_round_trip 1000 42 (by decide) (by decide)⟩

/-- Claim C10: for every timestamp t ≥ 2^32, the encoder truncates the
64-bit timestamp to its low 32 bits: the decoded pair is (t mod 2^32, v),
and t mod 2^32 differs from t. -/
theorem c10_codec_truncates (t v : Nat) (ht : 2 ^ 32 ≤ t) (hv : v < 2 ^ 64) :
    buf_to_point (fill_buf t v) = (t % 2 ^ 32, v) ∧ t % 2 ^ 32 ≠ t := by
  constructor
  · simp only [buf_to_point, fill_buf, u32BytesBE, u64BytesBE, bytesToNatBE,
      List.cons_append, List.nil_append, List.take, List.drop, List.foldl,
      Prod.mk.injEq]
    constructor <;> omega
  · have := Nat.mod_lt t (y := 2 ^ 32) (by decide)
    omega

/-- Claim C10 witness: at t = 2^32 + 60 the decoded timestamp is 60. -/
theorem c10_codec_truncates_witness :
    2 ^ 32 ≤ 2 ^ 32 + 60 ∧ 42 < 2 ^ 64 ∧
      (buf_to_point (fill_buf (2 ^ 32 + 60) 42) = ((2 ^ 32 + 60) % 2 ^ 32, 42) ∧
        (2 ^ 32 + 60) % 2 ^ 32 ≠ 2 ^ 32 + 60) :=
  ⟨by decide, by decide,
    c10_codec_truncates (2 ^ 32 + 60) 42 (by decide) (by decide)⟩

end Whisper

namespace Whisper

/-- Claim C2: a write whose age equals max_retention (the boundary case,
so no archive has retention strictly greater than the age) performs no
write and leaves the file unchanged — but instead of returning a
recoverable PointOutsideRetention error, WhisperFile::write panics with
"no archives satisfy current time" (file.rs line 179): the error taxonomy
the spec promises does not exist in the code.  Input: the fresh 1m:1h
file, current_time 1000000000, point timestamp 999996400 (age 3600 =
max_retention = the retention of the only archive). -/
theorem c2_out_of_retention_panics :
    (fileA.write 1000000000 ⟨999996400, 7⟩).panicMsg =
      some "no archives satisfy current time" ∧
    (fileA.write 1000000000 ⟨999996400, 7⟩).ops = [] ∧
    (fileA.write 1000000000 ⟨999996400, 7⟩).finalDisk = fileA.disk ∧
    1000000000 - 999996400 = mdA.max_retention := by
  refine ⟨by decide, by decide, rfl, by decide⟩

/-- Claim C8: a write with point.timestamp > current_time performs no
write, but instead of returning a recoverable PointInFuture error the u64
subtraction current_time − point.timestamp wraps around, split finds no
archive, and WhisperFile::write panics with "no archives satisfy current
time" — the code has no future-point check at all.  Input: the fresh
1m:1h file, current_time 1000000000, point timestamp 1000000100. -/
theorem c8_future_point_panics :
    (fileA.write 1000000000 ⟨1000000100, 7⟩).panicMsg =
      some "no archives satisfy current time" ∧
    (fileA.write 1000000000 ⟨1000000100, 7⟩).ops = [] ∧
    (fileA.write 1000000000 ⟨1000000100, 7⟩).finalDisk = fileA.disk := by
  refine ⟨by decide, by decide, rfl⟩

/-- Claim C3: the write path does NOT complete without panicking when the
fine archive has exactly 60 points: the debug panic at file.rs lines
264-267 fires on every cascaded write through a 60-point archive.  Input:
the fresh 1m:1h,1h:1d file (fine archive of 60 points), an in-retention
write at current_time = point timestamp = 1000000000.  The primary write
(seek 40) is performed before the call aborts with "sup". -/
theorem c3_sixty_point_archive_panics :
    (fileB.write 1000000000 ⟨1000000000, 42⟩).panicMsg = some "sup" ∧
    (fileB.write 1000000000 ⟨1000000000, 42⟩).ops.map WriteOp.seek = [40] ∧
    a0B.points = 60 ∧
    wrappedSub 1000000000 1000000000 < mdB.max_retention := by
  refine ⟨by decide, by decide, by decide, by decide⟩

/-- Claim C7: in the wrap-around case the second planned read does not
cover the claimed range [0, needed−(points−start)): downsample_new_read_ops
returns the end index — not 0 — as the start slot of the second read.  Input:
fine archive of 8 slots with base timestamp 2, coarse step 4s, anchor 8:
start slot 6, needed 4, so the claim requires the two ranges [6, 8) and
[0, 2), but the code plans (6, 2 slots) then (2, 2 slots), reading slots
[2, 4) instead of [0, 2) — the older downsample in the same file (line
430) seeks to the archive start for the second read, as does the spec. -/
theorem c7_wrap_read_second_range :
    downsample_new_read_ops diskC7 hC7 lC7 8 = ((6, 2), some (2, 2)) ∧
    (downsample_new_read_ops diskC7 hC7 lC7 8).2 ≠ some (0, 2) := by
  refine ⟨by decide, by decide⟩

end Whisper

namespace Whisper

/-- Claim C1 counterexample: in the three-archive fixture, the write
call write(10, (10, 5)) has its first downsample step A0→A1 skipped
(coverage 1/2 is below the x-files-factor 9/10 in the post-primary-write
state disk1C1), yet the same call writes an aggregated point into the
strictly coarser archive A2 at offset 244: the first skipped downsample
does not stop the cascade, because write_archives discards the result of
the unconditional first downsample (file.rs line 226) and the take_while
chain starts afresh at the A1→A2 pair. -/
theorem c1_cascade_not_stopped :
    downsample_new mdC1 disk1C1 a0C1 a1C1 10 = Except.ok none ∧
    (fileC1.write 10 ⟨10, 5⟩).ops.map WriteOp.seek = [76, 244] ∧
    a2C1.offset = 244 ∧
    (fileC1.write 10 ⟨10, 5⟩).finalDisk 244 = ⟨8, 2⟩ ∧
    fileC1.disk 244 = ⟨0, 0⟩ := by
  have hk1 : downsample_kept disk1C1 a0C1 a1C1 10 = [⟨10, 5⟩] := by decide
  have hk2 : downsample_kept disk1C1 a1C1 a2C1 10 = [⟨8, 1⟩, ⟨10, 3⟩] := by
    decide
  have hneed1 : a1C1.seconds_per_point / a0C1.seconds_per_point = 2 := by
    decide
  have hneed2 : a2C1.seconds_per_point / a1C1.seconds_per_point = 2 := by
    decide
  have hagg1 : aggregate_samples_consume mdC1 [(⟨10, 5⟩ : Point)] 2 = none := by
    norm_num [aggregate_samples_consume, mdC1]
  have hagg2 :
      aggregate_samples_consume mdC1 [(⟨8, 1⟩ : Point), ⟨10, 3⟩] 2 =
        some 2 := by
    norm_num [aggregate_samples_consume, mdC1]
  have hd1 : downsample_new mdC1 disk1C1 a0C1 a1C1 10 = Except.ok none := by
    simp only [downsample_new, hk1, hneed1, hagg1,
      if_neg (by decide : ¬ a0C1.points = 60)]
  have hic2 : a2C1.interval_ceiling 10 = 8 := by decide
  have hrb2 : (read_point disk1C1 a2C1.offset).timestamp = 0 := by decide
  have hbw2 : build_write_op a2C1 ⟨8, 2⟩ 0 = ⟨244, ⟨8, 2⟩⟩ := by decide
  have hd2 : downsample_new mdC1 disk1C1 a1C1 a2C1 10 =
      Except.ok (some (⟨244, ⟨8, 2⟩⟩ : WriteOp)) := by
    simp only [downsample_new, hk2, hneed2, hagg2, hic2, hrb2, hbw2,
      if_neg (by decide : ¬ a1C1.points = 60)]
  have hbt : (read_point diskC1 a0C1.offset).timestamp = 8 := by decide
  have hws : wrappedSub 10 (Point.timestamp ⟨10, 5⟩) = 0 := by decide
  have hsp : split [a0C1, a1C1, a2C1] 0 = some (a0C1, [a1C1, a2C1]) := by
    decide
  have hzip : [a1C1, a2C1].zip ([a1C1, a2C1].drop 1) = [(a1C1, a2C1)] := by
    decide
  have hprim : build_write_op a0C1 ⟨10, 5⟩ 8 = ⟨76, ⟨10, 5⟩⟩ := by decide
  have hwrite : fileC1.write 10 ⟨10, 5⟩ =
      WriteOutcome.ok [⟨76, ⟨10, 5⟩⟩, ⟨244, ⟨8, 2⟩⟩]
        (perform_write_op disk1C1 ⟨244, ⟨8, 2⟩⟩) := by
    show WhisperFile.write fileC1 10 ⟨10, 5⟩ = _
    simp only [WhisperFile.write, fileC1, hws, hsp]
    simp only [hbt]
    simp only [write_archives]
    rw [show perform_write_op diskC1 (build_write_op a0C1 ⟨10, 5⟩ 8) =
      disk1C1 from rfl]
    simp only [hd1, hzip, cascade, hd2, WriteOutcome.cons, hprim]
  refine ⟨hd1, ?_, by decide, ?_, by decide⟩
  · rw [hwrite]; decide
  · rw [hwrite]; decide

/-- Claim C1 as amended: within the chained part of the cascade — the
take_while over the zipped (finer, coarser) pairs, i.e. the steps
A1→A2, A2→A3, … — the first skipped downsample does stop everything after
it: no further write op is performed by the chain.  Only the initial
unconditional step A0→A1 escapes this rule. -/
theorem c1_first_skip_stops_chain (md : Metadata) (disk : Disk)
    (base_timestamp : Nat) (h_res l_res : ArchiveInfo)
    (rest : List (ArchiveInfo × ArchiveInfo))
    (hskip : downsample_new md disk h_res l_res base_timestamp =
      Except.ok none) :
    cascade md base_timestamp disk ((h_res, l_res) :: rest) =
      WriteOutcome.ok [] disk := by
  simp only [cascade, hskip]

/-- Claim C1 witness: the skipped A0→A1 step of the fixture stops a chain
beginning with that pair. -/
theorem c1_first_skip_stops_chain_witness :
    downsample_new mdC1 disk1C1 a0C1 a1C1 10 = Except.ok none ∧
    cascade mdC1 10 disk1C1 [(a0C1, a1C1)] = WriteOutcome.ok [] disk1C1 := by
  have hskip : downsample_new mdC1 disk1C1 a0C1 a1C1 10 = Except.ok none := by
    have hk1 : downsample_kept disk1C1 a0C1 a1C1 10 = [⟨10, 5⟩] := by decide
    have hneed1 : a1C1.seconds_per_point / a0C1.seconds_per_point = 2 := by
      decide
    have hagg1 : aggregate_samples_consume mdC1 [(⟨10, 5⟩ : Point)] 2 =
        none := by
      norm_num [aggregate_samples_consume, mdC1]
    simp only [downsample_new, hk1, hneed1, hagg1,
      if_neg (by decide : ¬ a0C1.points = 60)]
  exact ⟨hskip, c1_first_skip_stops_chain mdC1 disk1C1 10 a0C1 a1C1 [] hskip⟩

end Whisper

namespace Whisper

/-- Lower bound of the truncated remainder for a positive divisor
(companion to Int.tmod_lt_of_pos). -/
theorem neg_lt_tmod (a b : Int) (hb : 0 < b) : -b < Int.tmod a b := by
  rcases Int.le_or_lt 0 a with ha | ha
  · have := Int.tmod_nonneg (a := a) b ha
    omega
  · have h1 : Int.tmod (-a) b < b := Int.tmod_lt_of_pos (-a) hb
    have h2 := Int.tmod_def a b
    have h3 := Int.tmod_def (-a) b
    rw [Int.neg_tdiv a b] at h3
    have h5 : b * -(a.tdiv b) = -(b * a.tdiv b) := by ring
    rw [h5] at h3
    omega

/-- The add-then-remainder fixup used by calculate_seek lands in [0, b). -/
theorem tmod_fixup_bounds (a b : Int) (hb : 0 < b) :
    0 ≤ (Int.tmod a b + b).tmod b ∧ (Int.tmod a b + b).tmod b < b := by
  have h1 := neg_lt_tmod a b hb
  have h2 : 0 ≤ Int.tmod a b + b := by omega
  exact ⟨Int.tmod_nonneg b h2, Int.tmod_lt_of_pos _ hb⟩

/-- calculate_seek always lands inside the byte region of the archive. -/
theorem calculate_seek_mem (ai : ArchiveInfo) (p : Point) (b : Nat)
    (hpts : 0 < ai.points) :
    ai.offset ≤ ai.calculate_seek p b ∧
      ai.calculate_seek p b < ai.offset + ai.size_in_bytes := by
  have hsznat : 0 < ai.size_in_bytes := by
    simp only [ArchiveInfo.size_in_bytes]; omega
  simp only [ArchiveInfo.calculate_seek]
  by_cases hb : b = 0
  · simp only [if_pos hb]
    omega
  · simp only [if_neg hb]
    have hsz : (0 : Int) < (ai.size_in_bytes : Int) := by exact_mod_cast hsznat
    obtain ⟨h1, h2⟩ := tmod_fixup_bounds
      ((((ai.interval_ceiling p.timestamp : Int) - (b : Int)).tdiv
        (ai.seconds_per_point : Int)) * 12) (ai.size_in_bytes : Int) hsz
    omega

/-- split returns the first archive in declaration order whose retention
strictly exceeds the age, together with the archives after it. -/
theorem split_first (age : Nat) :
    ∀ (archives : List ArchiveInfo) (ai : ArchiveInfo)
      (rest : List ArchiveInfo),
      split archives age = some (ai, rest) →
      ∃ pre, archives = pre ++ ai :: rest ∧
        (∀ a ∈ pre, a.retention ≤ age) ∧ age < ai.retention := by
  intro archives
  induction archives with
  | nil =>
    intro ai rest h
    simp [split] at h
  | cons a as ih =>
    intro ai rest h
    by_cases hc : age < a.retention
    · simp only [split, if_pos hc, Option.some.injEq, Prod.mk.injEq] at h
      obtain ⟨h1, h2⟩ := h
      subst h1
      subst h2
      exact ⟨[], by simp, by simp, hc⟩
    · simp only [split, if_neg hc] at h
      obtain ⟨pre, hpre, hle, hlt⟩ := ih ai rest h
      refine ⟨a :: pre, by simp [hpre], ?_, hlt⟩
      intro x hx
      rcases List.mem_cons.mp hx with rfl | hx
      · omega
      · exact hle x hx

/-- Prepending an op conses it onto the recorded op list. -/
theorem writeOutcome_cons_ops (op : WriteOp) (w : WriteOutcome) :
    (WriteOutcome.cons op w).ops = op :: w.ops := by
  cases w <;> rfl

/-- The first op any write_archives run records is the primary write. -/
theorem write_archives_ops_head (md : Metadata) (disk : Disk)
    (ai : ArchiveInfo) (rest : List ArchiveInfo) (point : Point)
    (base_timestamp : Nat) :
    (write_archives md disk ai rest point base_timestamp).ops.head? =
      some (build_write_op ai point base_timestamp) := by
  cases rest with
  | nil => rfl
  | cons r0 rs =>
    simp only [write_archives]
    cases hds : downsample_new md
        (perform_write_op disk (build_write_op ai point base_timestamp)) ai r0
        point.timestamp with
    | error m => rfl
    | ok o =>
      cases o with
      | none =>
        rw [writeOutcome_cons_ops]
        rfl
      | some op =>
        rw [writeOutcome_cons_ops]
        rfl

/-- Claim C4 as amended: for every accepted write the primary write is
built on A0, the first archive in declaration order whose retention
strictly exceeds current_time − point.timestamp, its seek lies inside the
byte region of A0, and the 12-byte record carries point.value together with the
aligned timestamp reduced mod 2^32 — which equals the aligned timestamp
point.timestamp − (point.timestamp mod A0.seconds_per_point) whenever
point.timestamp < 2^32 (the general claim fails only through the u32
truncation, see the counterexample). -/
theorem c4_primary_write (f : WhisperFile) (current_time : Nat) (p : Point)
    (ai : ArchiveInfo) (rest : List ArchiveInfo)
    (hsplit : split f.header.archive_infos
        (wrappedSub current_time p.timestamp) = some (ai, rest))
    (hpts : 0 < ai.points) :
    (∃ pre, f.header.archive_infos = pre ++ ai :: rest ∧
        (∀ a ∈ pre, a.retention ≤ wrappedSub current_time p.timestamp) ∧
        wrappedSub current_time p.timestamp < ai.retention) ∧
    (f.write current_time p).ops.head? =
      some (build_write_op ai p (read_point f.disk ai.offset).timestamp) ∧
    (build_write_op ai p (read_point f.disk ai.offset).timestamp).point =
      ⟨ai.interval_ceiling p.timestamp % 2 ^ 32, p.value⟩ ∧
    (p.timestamp < 2 ^ 32 →
      (build_write_op ai p
          (read_point f.disk ai.offset).timestamp).point.timestamp =
        ai.interval_ceiling p.timestamp) ∧
    ai.offset ≤
      (build_write_op ai p (read_point f.disk ai.offset).timestamp).seek ∧
    (build_write_op ai p (read_point f.disk ai.offset).timestamp).seek <
      ai.offset + ai.size_in_bytes := by
  refine ⟨split_first _ _ _ _ hsplit, ?_, rfl, ?_, ?_, ?_⟩
  · show (WhisperFile.write f current_time p).ops.head? = _
    simp only [WhisperFile.write, hsplit]
    exact write_archives_ops_head _ _ _ _ _ _
  · intro ht
    show ai.interval_ceiling p.timestamp % 2 ^ 32 =
      ai.interval_ceiling p.timestamp
    have hle : ai.interval_ceiling p.timestamp ≤ p.timestamp :=
      Nat.sub_le _ _
    exact Nat.mod_eq_of_lt (lt_of_le_of_lt hle ht)
  · exact (calculate_seek_mem ai p _ hpts).1
  · exact (calculate_seek_mem ai p _ hpts).2

/-- Claim C4 counterexample: the accepted write at current_time =
point.timestamp = 2^32 + 60 on the fresh 1m:1h file stores the record
timestamp 44, not the aligned timestamp 4294967340 = 2^32 + 44: fill_buf
truncates the aligned u64 timestamp to u32. -/
theorem c4_truncated_primary_record :
    (fileA.write 4294967356 ⟨4294967356, 5⟩).ops.map
        (fun op => (op.seek, op.point.timestamp)) = [(28, 44)] ∧
    arch1h.interval_ceiling 4294967356 = 4294967340 ∧
    (44 : Nat) ≠ 4294967340 := by
  refine ⟨by decide, by decide, by decide⟩

/-- Claim C4 witness: the amended claim at the fresh 1m:1h file with
current_time = point.timestamp = 1000000000. -/
theorem c4_primary_write_witness :
    (∃ pre, fileA.header.archive_infos = pre ++ arch1h :: [] ∧
        (∀ a ∈ pre, a.retention ≤ wrappedSub 1000000000 1000000000) ∧
        wrappedSub 1000000000 1000000000 < arch1h.retention) ∧
    (fileA.write 1000000000 ⟨1000000000, 7⟩).ops.head? =
      some (build_write_op arch1h ⟨1000000000, 7⟩
        (read_point fileA.disk arch1h.offset).timestamp) ∧
    (build_write_op arch1h ⟨1000000000, 7⟩
        (read_point fileA.disk arch1h.offset).timestamp).point =
      ⟨arch1h.interval_ceiling 1000000000 % 2 ^ 32, 7⟩ ∧
    (1000000000 < 2 ^ 32 →
      (build_write_op arch1h ⟨1000000000, 7⟩
          (read_point fileA.disk arch1h.offset).timestamp).point.timestamp =
        arch1h.interval_ceiling 1000000000) ∧
    arch1h.offset ≤ (build_write_op arch1h ⟨1000000000, 7⟩
        (read_point fileA.disk arch1h.offset).timestamp).seek ∧
    (build_write_op arch1h ⟨1000000000, 7⟩
        (read_point fileA.disk arch1h.offset).timestamp).seek <
      arch1h.offset + arch1h.size_in_bytes :=
  c4_primary_write fileA 1000000000 ⟨1000000000, 7⟩ arch1h []
    (by decide) (by decide)

end Whisper

namespace Whisper

/-- aggregate_samples_consume skips exactly when the coverage ratio is
below the x-files-factor. -/
theorem aggregate_none_iff (md : Metadata) (pts : List Point)
    (possible : Nat) :
    aggregate_samples_consume md pts possible = none ↔
      (pts.length : ℚ) / (possible : ℚ) < md.x_files_factor := by
  unfold aggregate_samples_consume
  by_cases hc : (pts.length : ℚ) / (possible : ℚ) < md.x_files_factor
  · simp [hc]
  · simp only [if_neg hc]
    cases md.aggregation_type <;> simp [hc]

/-- Under Average, aggregate_samples_consume computes the arithmetic mean
of the kept values. -/
theorem aggregate_some_average (md : Metadata) (pts : List Point)
    (possible : Nat) (v : ℚ)
    (hagg : md.aggregation_type = AggregationType.Average)
    (hv : aggregate_samples_consume md pts possible = some v) :
    v = (pts.map Point.value).sum / (pts.length : ℚ) := by
  unfold aggregate_samples_consume at hv
  by_cases hc : (pts.length : ℚ) / (possible : ℚ) < md.x_files_factor
  · simp [hc] at hv
  · rw [if_neg hc, hagg] at hv
    simp only [Option.some.injEq] at hv
    rw [← hv, List.sum_eq_foldl]

/-- Claim C5: with kept the fine slots whose stored timestamp equals the
expected one and needed = coarse.seconds_per_point / fine.seconds_per_point,
a downsample step (of a fine archive clear of the 60-point debug panic)
writes the coarse point iff kept/needed is not below the x-files-factor,
and under Average the written value is the arithmetic mean of the kept
values.  The f32 ratio is modelled as the exact rational. -/
theorem c5_xff_and_average (md : Metadata) (disk : Disk)
    (h_res_archive l_res_archive : ArchiveInfo) (base_timestamp : Nat)
    (hagg : md.aggregation_type = AggregationType.Average)
    (h60 : h_res_archive.points ≠ 60) :
    (downsample_new md disk h_res_archive l_res_archive base_timestamp =
        Except.ok none ↔
      ((downsample_kept disk h_res_archive l_res_archive
            base_timestamp).length : ℚ) /
          ((l_res_archive.seconds_per_point /
            h_res_archive.seconds_per_point : Nat) : ℚ) <
        md.x_files_factor) ∧
    (∀ op,
      downsample_new md disk h_res_archive l_res_archive base_timestamp =
        Except.ok (some op) →
      op.point.value =
        ((downsample_kept disk h_res_archive l_res_archive
            base_timestamp).map Point.value).sum /
          ((downsample_kept disk h_res_archive l_res_archive
            base_timestamp).length : ℚ)) := by
  simp only [downsample_new, if_neg h60]
  cases hc : aggregate_samples_consume md
      (downsample_kept disk h_res_archive l_res_archive base_timestamp)
      (l_res_archive.seconds_per_point / h_res_archive.seconds_per_point) with
  | none =>
    refine ⟨iff_of_true rfl ((aggregate_none_iff _ _ _).mp hc), ?_⟩
    intro op hop
    simp at hop
  | some a =>
    have hnone : ¬ aggregate_samples_consume md
        (downsample_kept disk h_res_archive l_res_archive base_timestamp)
        (l_res_archive.seconds_per_point / h_res_archive.seconds_per_point) =
          none := by
      rw [hc]
      simp
    refine ⟨iff_of_false (by simp) ?_, ?_⟩
    · intro hlt
      exact hnone ((aggregate_none_iff _ _ _).mpr hlt)
    · intro op hop
      simp only [Except.ok.injEq, Option.some.injEq] at hop
      rw [← hop]
      have := aggregate_some_average md
        (downsample_kept disk h_res_archive l_res_archive base_timestamp)
        (l_res_archive.seconds_per_point / h_res_archive.seconds_per_point)
        a hagg hc
      simpa [build_write_op] using this

/-- Claim C5 witness: the epoch-window fixture at anchor 1 (kept = one of
two slots, ratio 1/2, xff 1/2, mean 7). -/
theorem c5_xff_and_average_witness :
    mdC6.aggregation_type = AggregationType.Average ∧ hC6.points ≠ 60 ∧
    ((downsample_new mdC6 diskC6 hC6 lC6 1 = Except.ok none ↔
        ((downsample_kept diskC6 hC6 lC6 1).length : ℚ) /
            ((lC6.seconds_per_point / hC6.seconds_per_point : Nat) : ℚ) <
          mdC6.x_files_factor) ∧
      (∀ op, downsample_new mdC6 diskC6 hC6 lC6 1 = Except.ok (some op) →
        op.point.value =
          ((downsample_kept diskC6 hC6 lC6 1).map Point.value).sum /
            ((downsample_kept diskC6 hC6 lC6 1).length : ℚ))) :=
  ⟨rfl, by decide, c5_xff_and_average mdC6 diskC6 hC6 lC6 1 rfl (by decide)⟩

/-- Claim C6 counterexample: in the epoch-window fixture the coarse window
of anchor 1 starts at timestamp 0, so the fine slot 0 holding the record
(0, 7) — timestamp 0, the empty-slot sentinel — matches its expected
timestamp 0 and IS kept: it alone lifts the coverage to 1/2 = xff and its
value 7 becomes the written aggregate, so the sentinel was counted both in
the coverage ratio and in the aggregate. -/
theorem c6_zero_slot_counted :
    lC6.interval_ceiling 1 = 0 ∧
    downsample_kept diskC6 hC6 lC6 1 = [⟨0, 7⟩] ∧
    downsample_new mdC6 diskC6 hC6 lC6 1 =
      Except.ok (some (⟨200, ⟨0, 7⟩⟩ : WriteOp)) := by
  have hk : downsample_kept diskC6 hC6 lC6 1 = [⟨0, 7⟩] := by decide
  have hneed : lC6.seconds_per_point / hC6.seconds_per_point = 2 := by decide
  have hagg : aggregate_samples_consume mdC6 [(⟨0, 7⟩ : Point)] 2 =
      some 7 := by
    norm_num [aggregate_samples_consume, mdC6]
  have hic : lC6.interval_ceiling 1 = 0 := by decide
  have hrb : (read_point diskC6 lC6.offset).timestamp = 0 := by decide
  have hbw : build_write_op lC6 ⟨0, 7⟩ 0 = ⟨200, ⟨0, 7⟩⟩ := by decide
  refine ⟨hic, hk, ?_⟩
  simp only [downsample_new, hk, hneed, hagg, hic, hrb, hbw,
    if_neg (by decide : ¬ hC6.points = 60)]

/-- Claim C6 as amended: a fine slot with the sentinel timestamp 0 is
never among the kept samples of a downsample window whose window start is
positive; only the single window starting at epoch 0 can count a
zero-timestamp slot (as the counterexample shows). -/
theorem c6_zero_slot_filtered (disk : Disk)
    (h_res_archive l_res_archive : ArchiveInfo) (base_timestamp : Nat)
    (hw : 0 < l_res_archive.interval_ceiling base_timestamp) :
    ∀ p ∈ downsample_kept disk h_res_archive l_res_archive base_timestamp,
      p.timestamp ≠ 0 := by
  intro p hp
  unfold downsample_kept filter_values at hp
  rw [List.mem_filterMap] at hp
  obtain ⟨⟨q, e⟩, hmem, hq⟩ := hp
  have hee : e ∈ expected_timestamps h_res_archive l_res_archive
      base_timestamp := (List.of_mem_zip hmem).2
  by_cases hts : q.timestamp = e
  · rw [if_pos hts] at hq
    simp only [Option.some.injEq] at hq
    subst hq
    unfold expected_timestamps at hee
    simp only [List.mem_map, List.mem_range] at hee
    obtain ⟨i, _, hi⟩ := hee
    omega
  · rw [if_neg hts] at hq
    simp at hq

/-- Claim C6 witness: in the epoch-window fixture at anchor 5 the window
starts at 4 > 0 and every kept sample has a nonzero timestamp. -/
theorem c6_zero_slot_filtered_witness :
    0 < lC6.interval_ceiling 5 ∧
    ∀ p ∈ downsample_kept diskC6 hC6 lC6 5, p.timestamp ≠ 0 :=
  ⟨by decide, c6_zero_slot_filtered diskC6 hC6 lC6 5 (by decide)⟩

end Whisper
